import Mathlib

/-!
Shallow embedding of `embedchain/vectordb/pinecone.py` (class `PineconeDb`),
a thin adapter binding the embedchain vector-store interface to the Pinecone
service.  Python strings are modelled as `List Char`; Python dynamic values
(needed because several claims concern runtime type checks and the shapes of
returned objects) are modelled by the inductive `PyObj`; raised exceptions are
modelled by `Except PyErr`.  Calls to the remote Pinecone service are modelled
by explicit service-response parameters plus call logs, so that theorems can
speak about which calls are issued and with which arguments.
-/

namespace Pinecone

/-- Python strings, modelled as lists of characters. -/
abbrev Str := List Char

/-- Python runtime values, as far as this adapter manipulates them: strings,
integers, `None`, sets of strings (`set()` built by `.add`), and string-keyed
dictionaries. -/
inductive PyObj where
  | str : Str → PyObj
  | int : Int → PyObj
  | noneVal : PyObj
  | strSet : List Str → PyObj
  | dict : List (Str × PyObj) → PyObj
  deriving Inhabited

/-- Exception kinds relevant to the claims.  `valueError`, `typeError`,
`keyError` and `indexError` are the Python built-ins the code can raise;
`configurationError` and `inputError` are the error kinds named by the
specification (they do not occur anywhere in the code). -/
inductive PyErr where
  | valueError : PyErr
  | typeError : PyErr
  | keyError : PyErr
  | indexError : PyErr
  | configurationError : PyErr
  | inputError : PyErr
  deriving DecidableEq, Repr

/-- Configuration object (`PineconeDbConfig`); its class lives outside the
analysed file, so only the three fields the adapter reads are modelled:
`collection_name`, `dimension` and `metric`. -/
structure PineconeDbConfig where
  collection_name : Str
  dimension : Nat
  metric : Str
  deriving DecidableEq, Repr

/-- Python `str.lower` on a single character, restricted to ASCII (the only
case the claims exercise): an upper-case basic-latin letter is shifted down by
32 code points, everything else is unchanged. -/
def pyLowerChar (c : Char) : Char :=
  if c.isUpper then Char.ofNat (c.toNat + 32) else c

/-- Python `str.lower`, characterwise. -/
def pyLower (s : Str) : Str :=
  s.map pyLowerChar

/-- Python `str.replace(a, b)` for single-character `a` and `b`:
replace every occurrence of `a` by `b`. -/
def pyReplace (s : Str) (a b : Char) : Str :=
  s.map fun c => if c = a then b else c

/-- Decimal rendering of a natural number, as Python `f"{n}"` produces for a
non-negative int (the config's `dimension`). -/
def natStr (n : Nat) : Str :=
  Nat.toDigits 10 n

/-- Embedding of `PineconeDb._get_index_name`:
`f"{self.config.collection_name}-{self.config.dimension}".lower().replace("_", "-")`. -/
def get_index_name (config : PineconeDbConfig) : Str :=
  pyReplace (pyLower (config.collection_name ++ '-' :: natStr config.dimension)) '_' '-'

/-- Modelled from the spec: the index-name derivation as §3 of the
specification words it, with EVERY non-alphanumeric character other than `-`
replaced by `-` (the code only replaces `_`).  Refinement target for C1. -/
def specIndexName (config : PineconeDbConfig) : Str :=
  (pyLower (config.collection_name ++ '-' :: natStr config.dimension)).map
    fun c => if c.isAlphanum || c = '-' then c else '-'

/-- The output alphabet the specification asserts for index names:
lower-case basic-latin letters, decimal digits, and `-`. -/
def isLowerAlnumDash (c : Char) : Bool :=
  c.isLower || c.isDigit || c = '-'

/-- Metadata mappings (`Dict[str, any]`), modelled as association lists that
keep Python-dict insertion order. -/
abbrev Meta := List (Str × PyObj)

/-- Python `d[k] = v` on a dict: overwrite the value in place if the key is
present, append the new binding otherwise. -/
def mdSet (m : Meta) (k : Str) (v : PyObj) : Meta :=
  if m.any (fun p => p.1 = k) then
    m.map fun p => if p.1 = k then (k, v) else p
  else
    m ++ [(k, v)]

/-- Python `d[k]` on a dict, `none` meaning a raised `KeyError`. -/
def mdGet (m : Meta) (k : Str) : Option PyObj :=
  (m.find? fun p => p.1 = k).map Prod.snd

/-- The literal string `"text"` used as metadata key by `add` and `query`. -/
def textKey : Str := ['t', 'e', 'x', 't']

/-- A record sent to `client.upsert`: the dict
`{"id": id, "values": embedding, "metadata": metadata}`.  The embedding type
`E` is abstract (the embedder is an external collaborator). -/
structure PineconeRecord (E : Type) where
  id : Str
  values : E
  metadata : Meta

/-- Observable outcome of `PineconeDb.add`: the records built, the batched
`client.upsert` calls issued (each entry one call), and the caller's metadata
objects as they stand after the call (Python mutates them in place). -/
structure AddOutcome (E : Type) where
  records : List (PineconeRecord E)
  upserts : List (List (PineconeRecord E))
  metadatasAfter : List Meta

/-- Embedding of `PineconeDb.add(documents, metadatas, ids)`.  The embedder is
passed as the function `embedding_fn`; `zip` truncates to the shortest of the
four sequences exactly as Python `zip` does; each zipped metadata dict gets
`metadata["text"] = text` before being packed into a record; the records are
sent in a single `client.upsert(docs)` call. -/
def add (embedding_fn : List Str → List E) (documents : List Str)
    (metadatas : List Meta) (ids : List Str) : AddOutcome E :=
  let embeddings := embedding_fn documents
  let zipped := ids.zip (documents.zip (metadatas.zip embeddings))
  let docs := zipped.map fun q =>
    { id := q.1, values := q.2.2.2, metadata := mdSet q.2.2.1 textKey (PyObj.str q.2.1) }
  { records := docs
    upserts := [docs]
    metadatasAfter :=
      (zipped.map fun q => mdSet q.2.2.1 textKey (PyObj.str q.2.1))
        ++ metadatas.drop zipped.length }

/-- Arguments of one `client.query` call as issued by `PineconeDb.query`. -/
structure QueryCall (E : Type) where
  vector : E
  filter : Meta
  top_k : Nat
  include_metadata : Bool

/-- One match returned by the service: Pinecone's
`{"id": ..., "metadata": ...}` object (the fields the adapter reads). -/
structure MatchRec where
  id : Str
  metadata : Meta

/-- Python `list(map(lambda content: content["metadata"]["text"], matches))`:
extract the `"text"` metadata field of every match in order; a missing key
raises `KeyError`, modelled by `none`. -/
def extractTexts : List MatchRec → Option (List PyObj)
  | [] => some []
  | m :: ms =>
    match mdGet m.metadata textKey with
    | none => none
    | some t => (extractTexts ms).map fun ts => t :: ts

/-- Embedding of `PineconeDb.query(input_query, n_results, where)`.  The
service is the function `svc` from a query call to its matches; the result
pairs the single `client.query` call issued with the returned list of texts.
`input_query_vector[0]` on an empty embedding list raises `IndexError`. -/
def query (embedding_fn : List Str → List E) (svc : QueryCall E → List MatchRec)
    (input_query : List Str) (n_results : Nat) (whereF : Meta) :
    Except PyErr (QueryCall E × List PyObj) :=
  let input_query_vector := embedding_fn input_query
  match input_query_vector[0]? with
  | none => .error .indexError
  | some query_vector =>
    let call : QueryCall E := ⟨query_vector, whereF, n_results, true⟩
    match extractTexts (svc call) with
    | none => .error .keyError
    | some texts => .ok (call, texts)

/-- Arguments of the `client.query` call issued by `PineconeDb.get`:
`client.query(vector=zero_vector, top_k=max(1, self.count()), filter=where)`.
The vector here is a Python list of int zeros, not an embedding. -/
structure GetQueryCall where
  vector : List Int
  top_k : Nat
  filter : Option Meta

/-- The remote index as `get`/`count` observe it: the
`describe_index_stats()["total_vector_count"]` statistic and the matches the
service returns for a query call. -/
structure GetService where
  total_vector_count : Nat
  matchesFor : GetQueryCall → List MatchRec

/-- Embedding of `PineconeDb.count`:
`self.client.describe_index_stats()["total_vector_count"]`. -/
def count (svc : GetService) : Nat :=
  svc.total_vector_count

/-- Python `s.add(x)` on a set, with the set modelled as its insertion-ordered
list of distinct elements. -/
def pySetAdd (s : List Str) (x : Str) : List Str :=
  if x ∈ s then s else s ++ [x]

/-- The set built by `ids = set(); for result in matches: ids.add(result["id"])`. -/
def pySetOf (xs : List Str) : List Str :=
  xs.foldl pySetAdd []

/-- The literal string `"ids"`, the key of the dict `get` returns. -/
def idsKey : Str := ['i', 'd', 's']

/-- Embedding of `PineconeDb.get(ids, where, limit)`.  Builds the zero vector
of length `dimension` by the source's append loop, issues one similarity
query, collects the match ids into a set, and returns `{"ids": ids}`.  The
result pairs the list of issued query calls with the returned object.  The
`ids` and `limit` parameters are accepted (as in the source) and never read. -/
def get (svc : GetService) (dimension : Nat) (ids : Option (List Str))
    (whereF : Option Meta) (limit : Option Nat) : List GetQueryCall × PyObj :=
  let zero_vector : List Int := List.replicate dimension 0
  let call : GetQueryCall := ⟨zero_vector, max 1 (count svc), whereF⟩
  let results := svc.matchesFor call
  let idSet := (results.map MatchRec.id).foldl pySetAdd []
  ([call], PyObj.dict [(idsKey, PyObj.strSet idSet)])

/-- Adapter instance state: the configuration object, the derived
`index_name`, the service connection handle returned by
`pinecone.Index(index_name)` (modelled by the name it was opened with), and
the externally attached embedder (`None` until `set_embedder` runs). -/
structure PineconeDb (E : Type) where
  config : PineconeDbConfig
  index_name : Str
  client : Str
  embedder : Option (List Str → List E)

/-- Embedding of `PineconeDb.set_collection_name(name)`: `name` is a runtime
value; a non-string raises `TypeError` and changes nothing, a string is
written into `config.collection_name`.  The result pairs the raised-or-ok
outcome with the adapter state after the call. -/
def set_collection_name (db : PineconeDb E) (name : PyObj) :
    Except PyErr Unit × PineconeDb E :=
  match name with
  | .str s => (.ok (), { db with config := { db.config with collection_name := s } })
  | _ => (.error .typeError, db)

/-- Embedding of `PineconeDb._initialize`: raise `ValueError` when no embedder
is attached, otherwise do nothing.  The result pairs the outcome with the
(unchanged) adapter state. -/
def initCheckEmbedder (db : PineconeDb E) : Except PyErr Unit × PineconeDb E :=
  match db.embedder with
  | none => (.error .valueError, db)
  | some _ => (.ok (), db)

/-- Remote-service calls `_setup_pinecone_index` can issue, in order:
`pinecone.init`, `pinecone.list_indexes`, `pinecone.create_index` and the
`pinecone.Index` handle constructor. -/
inductive SvcCall where
  | pineconeInit : SvcCall
  | listIndexes : SvcCall
  | createIndex : Str → Str → Nat → SvcCall
  | indexHandle : Str → SvcCall
  deriving DecidableEq

/-- Embedding of `PineconeDb._setup_pinecone_index`.  The service's response
to `list_indexes()` is the parameter `existing` (`none` models the `None`
response the code guards against).  Returns `(index_name, client handle)`
together with the log of service calls issued. -/
def setup_pinecone_index (config : PineconeDbConfig)
    (existing : Option (List Str)) : (Str × Str) × List SvcCall :=
  let index_name := get_index_name config
  let createCalls :=
    match existing with
    | none => [SvcCall.createIndex index_name config.metric config.dimension]
    | some idxs =>
      if index_name ∈ idxs then []
      else [SvcCall.createIndex index_name config.metric config.dimension]
  ((index_name, index_name),
    SvcCall.pineconeInit :: SvcCall.listIndexes :: createCalls
      ++ [SvcCall.indexHandle index_name])

/-- The `config` argument of `PineconeDb.__init__` as a runtime value:
`None`, a `PineconeDbConfig` instance, or a value of any other type. -/
inductive InitArg where
  | noneArg : InitArg
  | cfg : PineconeDbConfig → InitArg
  | wrongType : InitArg

/-- Embedding of `PineconeDb.__init__(config)`.  `default` stands for the
`PineconeDbConfig()` built when no config is passed (that class lives outside
the analysed file); a non-`None` argument that is not a `PineconeDbConfig`
raises `TypeError` before `_setup_pinecone_index` runs, so the service-call
log is empty in that case. -/
def init (E : Type) (default : PineconeDbConfig) (arg : InitArg)
    (existing : Option (List Str)) : Except PyErr (PineconeDb E) × List SvcCall :=
  match arg with
  | .wrongType => (.error .typeError, [])
  | .noneArg =>
    let r := setup_pinecone_index default existing
    (.ok ⟨default, r.1.1, r.1.2, none⟩, r.2)
  | .cfg c =>
    let r := setup_pinecone_index c existing
    (.ok ⟨c, r.1.1, r.1.2, none⟩, r.2)

/-- The `"text"` metadata field of a match, as the lambda inside `query` reads
it (total version used to state what `query` returns when no `KeyError` can
occur). -/
def textOf (m : MatchRec) : PyObj :=
  (mdGet m.metadata textKey).getD (PyObj.str [])

/-- Python `isinstance(x, str)` on a modelled runtime value. -/
def isStr : PyObj → Bool
  | .str _ => true
  | _ => false

/-- Concrete embedder used by witnesses: each text is embedded as its length. -/
def wEmbedFn : List Str → List Nat :=
  fun l => l.map List.length

/-- Concrete service response used by the C3 witness: one match whose
metadata carries `"text"`. -/
def wSvc : QueryCall Nat → List MatchRec :=
  fun _ => [⟨['i', '1'], [(textKey, PyObj.str ['h', 'i'])]⟩]

/-! Helper lemmas about characters and decimal digits. -/

theorem char_toNat_ofNat (n : Nat) (h : n.isValidChar) : (Char.ofNat n).toNat = n := by
  unfold Char.ofNat
  rw [dif_pos h]
  rfl

theorem char_isLower_iff (c : Char) : c.isLower = true ↔ 97 ≤ c.toNat ∧ c.toNat ≤ 122 := by
  simp [Char.isLower, UInt32.le_def, BitVec.le_def, Char.toNat, UInt32.toNat]

theorem char_isUpper_iff (c : Char) : c.isUpper = true ↔ 65 ≤ c.toNat ∧ c.toNat ≤ 90 := by
  simp [Char.isUpper, UInt32.le_def, BitVec.le_def, Char.toNat, UInt32.toNat]

theorem char_isDigit_iff (c : Char) : c.isDigit = true ↔ 48 ≤ c.toNat ∧ c.toNat ≤ 57 := by
  simp [Char.isDigit, UInt32.le_def, BitVec.le_def, Char.toNat, UInt32.toNat]

theorem pyLowerChar_of_upper (c : Char) (h : c.isUpper = true) :
    (pyLowerChar c).isLower = true := by
  have hv := (char_isUpper_iff c).mp h
  have hvalid : (c.toNat + 32).isValidChar := Or.inl (by omega)
  unfold pyLowerChar
  rw [if_pos h, char_isLower_iff, char_toNat_ofNat _ hvalid]
  omega

theorem pyLowerChar_of_not_upper (c : Char) (h : c.isUpper = false) :
    pyLowerChar c = c := by
  unfold pyLowerChar
  rw [if_neg (by simp [h])]

theorem digitChar_isDigit (m : Nat) (h : m < 10) : (Nat.digitChar m).isDigit = true := by
  interval_cases m <;> decide

theorem mem_toDigitsCore_isDigit (f : Nat) :
    ∀ (n : Nat) (ds : List Char) (c : Char), c ∈ Nat.toDigitsCore 10 f n ds →
      c ∈ ds ∨ c.isDigit = true := by
  induction f with
  | zero => intro n ds c hc; exact Or.inl hc
  | succ f ih =>
    intro n ds c hc
    simp only [Nat.toDigitsCore] at hc
    by_cases h : n / 10 = 0
    · rw [if_pos h] at hc
      rcases List.mem_cons.mp hc with h1 | h1
      · exact Or.inr (h1 ▸ digitChar_isDigit _ (Nat.mod_lt _ (by omega)))
      · exact Or.inl h1
    · rw [if_neg h] at hc
      rcases ih _ _ _ hc with h1 | h1
      · rcases List.mem_cons.mp h1 with h2 | h2
        · exact Or.inr (h2 ▸ digitChar_isDigit _ (Nat.mod_lt _ (by omega)))
        · exact Or.inl h2
      · exact Or.inr h1

theorem mem_natStr_isDigit (n : Nat) (c : Char) (hc : c ∈ natStr n) : c.isDigit = true := by
  rcases mem_toDigitsCore_isDigit (n + 1) n [] c hc with h | h
  · cases h
  · exact h

theorem norm_char_ok (c : Char) (h : c.isAlphanum = true ∨ c = '-' ∨ c = '_') :
    isLowerAlnumDash (if pyLowerChar c = '_' then '-' else pyLowerChar c) = true := by
  have lower_ne : ∀ d : Char, d.isLower = true → d ≠ '_' := by
    intro d hd he
    rw [he] at hd
    exact absurd hd (by decide)
  have digit_ne : ∀ d : Char, d.isDigit = true → d ≠ '_' := by
    intro d hd he
    rw [he] at hd
    exact absurd hd (by decide)
  rcases h with h | h | h
  · simp only [Char.isAlphanum, Char.isAlpha, Bool.or_eq_true] at h
    rcases h with (h | h) | h
    · have hl := pyLowerChar_of_upper c h
      rw [if_neg (lower_ne _ hl)]
      simp [isLowerAlnumDash, hl]
    · have hu : c.isUpper = false := by
        rcases hux : c.isUpper with _ | _
        · rfl
        · exact absurd ((char_isUpper_iff c).mp hux) (by
            have h2 := (char_isLower_iff c).mp h
            omega)
      rw [pyLowerChar_of_not_upper c hu, if_neg (lower_ne _ h)]
      simp [isLowerAlnumDash, h]
    · have hu : c.isUpper = false := by
        rcases hux : c.isUpper with _ | _
        · rfl
        · exact absurd ((char_isUpper_iff c).mp hux) (by
            have h2 := (char_isDigit_iff c).mp h
            omega)
      rw [pyLowerChar_of_not_upper c hu, if_neg (digit_ne _ h)]
      simp [isLowerAlnumDash, h]
  · subst h; decide
  · subst h; decide

/-! Claim C1 (index-name derivation). -/

/-- C1, counterexample: for the configuration with collection name `"a.b"` and
dimension 2 the derived index name is `"a.b-2"`, which differs from the
spec's full-replacement derivation (`"a-b-2"`) and contains the character
`'.'`, which is neither a lowercase alphanumeric nor `'-'`.  So the claim
that every non-alphanumeric character other than `-` is replaced, and that
the result contains only lowercase alphanumerics and `-`, is false. -/
theorem c1_counterexample :
    get_index_name ⟨['a', '.', 'b'], 2, []⟩ ≠ specIndexName ⟨['a', '.', 'b'], 2, []⟩ ∧
    ∃ c ∈ get_index_name ⟨['a', '.', 'b'], 2, []⟩, isLowerAlnumDash c = false := by
  decide

/-- C1, amended: the derived index name is the lowercase of
`collection_name + "-" + dimension` with only `"_"` replaced by `"-"`; hence
it contains only lowercase alphanumerics and `"-"` provided every character
of the collection name is an ASCII alphanumeric, `'-'`, or `'_'`. -/
theorem c1_index_name_alphabet (config : PineconeDbConfig)
    (h : ∀ c ∈ config.collection_name, c.isAlphanum = true ∨ c = '-' ∨ c = '_') :
    ∀ c ∈ get_index_name config, isLowerAlnumDash c = true := by
  intro c hc
  simp only [get_index_name, pyReplace, pyLower, List.map_map, List.mem_map] at hc
  obtain ⟨d, hd, hrep⟩ := hc
  have hd' : d ∈ config.collection_name ∨ d = '-' ∨ d ∈ natStr config.dimension := by
    rcases List.mem_append.mp hd with h1 | h1
    · exact Or.inl h1
    · rcases List.mem_cons.mp h1 with h2 | h2
      · exact Or.inr (Or.inl h2)
      · exact Or.inr (Or.inr h2)
  have hsrc : d.isAlphanum = true ∨ d = '-' ∨ d = '_' := by
    rcases hd' with h1 | h1 | h1
    · exact h d h1
    · exact Or.inr (Or.inl h1)
    · exact Or.inl (by
        have := mem_natStr_isDigit _ _ h1
        simp [Char.isAlphanum, this])
  have := norm_char_ok d hsrc
  simpa [Function.comp] using hrep ▸ this

/-- C1 witness: concrete run of `c1_index_name_alphabet` on the configuration
with collection name `"My_Coll"` and dimension 1536. -/
theorem c1_index_name_alphabet_witness :
    (∀ c ∈ (PineconeDbConfig.mk ['M', 'y', '_', 'C', 'o', 'l', 'l'] 1536 []).collection_name,
        c.isAlphanum = true ∨ c = '-' ∨ c = '_') ∧
    ∀ c ∈ get_index_name ⟨['M', 'y', '_', 'C', 'o', 'l', 'l'], 1536, []⟩,
        isLowerAlnumDash c = true :=
  ⟨by decide, c1_index_name_alphabet ⟨['M', 'y', '_', 'C', 'o', 'l', 'l'], 1536, []⟩ (by decide)⟩

/-! Claim C2 (silent zip truncation in `add`). -/

/-- C2: `add` builds exactly `min` of the four sequence lengths (ids,
documents, metadatas, embeddings) many records and sends them to the service
in one single `upsert` call; the function is total, so no error or warning is
raised when the lengths differ. -/
theorem c2_add_zip_truncation (E : Type) (embedding_fn : List Str → List E)
    (documents : List Str) (metadatas : List Meta) (ids : List Str) :
    (add embedding_fn documents metadatas ids).upserts =
      [(add embedding_fn documents metadatas ids).records] ∧
    (add embedding_fn documents metadatas ids).records.length =
      min ids.length (min documents.length
        (min metadatas.length (embedding_fn documents).length)) := by
  constructor
  · rfl
  · simp [add, List.length_zip]

/-! Claim C3 (`query` uses the first embedding only). -/

theorem extractTexts_eq_map (ms : List MatchRec)
    (h : ∀ m ∈ ms, (mdGet m.metadata textKey).isSome = true) :
    extractTexts ms = some (ms.map textOf) := by
  induction ms with
  | nil => rfl
  | cons m ms ih =>
    have hm := h m (List.mem_cons_self m ms)
    obtain ⟨t, ht⟩ := Option.isSome_iff_exists.mp hm
    simp only [extractTexts, ht, List.map_cons,
      ih fun x hx => h x (List.mem_cons_of_mem m hx)]
    simp [Option.map_some, textOf, ht]

/-- C3: on a non-empty query list (with the embedder producing one embedding
per query, and the service returning matches whose metadata carries `"text"`),
`query` issues the similarity search with the FIRST embedding of the embedded
list, `top_k = n_results` and `include_metadata = true`, and returns the
`"text"` metadata field of each returned match in service order.  Moreover
any embedder producing the same first embedding on this input yields the same
outcome: only the first embedding is used. -/
theorem c3_query_first_embedding (E : Type) (embedding_fn : List Str → List E)
    (svc : QueryCall E → List MatchRec) (input_query : List Str)
    (n_results : Nat) (whereF : Meta)
    (hne : input_query ≠ [])
    (hlen : (embedding_fn input_query).length = input_query.length)
    (hmd : ∀ call, ∀ m ∈ svc call, (mdGet m.metadata textKey).isSome = true) :
    (∃ qv, (embedding_fn input_query)[0]? = some qv ∧
      query embedding_fn svc input_query n_results whereF =
        Except.ok (⟨qv, whereF, n_results, true⟩,
          (svc ⟨qv, whereF, n_results, true⟩).map textOf)) ∧
    ∀ embedding_fn₂ : List Str → List E,
      (embedding_fn₂ input_query)[0]? = (embedding_fn input_query)[0]? →
      query embedding_fn₂ svc input_query n_results whereF =
        query embedding_fn svc input_query n_results whereF := by
  have hnil : embedding_fn input_query ≠ [] := by
    intro h0
    exact hne (List.eq_nil_of_length_eq_zero (by rw [← hlen, h0]; rfl))
  obtain ⟨qv, hqv⟩ : ∃ qv, (embedding_fn input_query)[0]? = some qv := by
    rcases hx : embedding_fn input_query with _ | ⟨a, l⟩
    · exact absurd hx hnil
    · exact ⟨a, by simp [hx]⟩
  constructor
  · refine ⟨qv, hqv, ?_⟩
    simp only [query, hqv, extractTexts_eq_map _ (hmd _)]
  · intro efn₂ h₂
    simp only [query, h₂]

/-- C3 witness: concrete run of `c3_query_first_embedding` with one query
string, the length embedder and a one-match service. -/
theorem c3_query_first_embedding_witness :
    ([['h', 'i']] : List Str) ≠ [] ∧
    (wEmbedFn [['h', 'i']]).length = ([['h', 'i']] : List Str).length ∧
    (∀ call, ∀ m ∈ wSvc call, (mdGet m.metadata textKey).isSome = true) ∧
    ((∃ qv, (wEmbedFn [['h', 'i']])[0]? = some qv ∧
      query wEmbedFn wSvc [['h', 'i']] 1 [] =
        Except.ok (⟨qv, [], 1, true⟩, (wSvc ⟨qv, [], 1, true⟩).map textOf)) ∧
    ∀ embedding_fn₂ : List Str → List Nat,
      (embedding_fn₂ [['h', 'i']])[0]? = (wEmbedFn [['h', 'i']])[0]? →
      query embedding_fn₂ wSvc [['h', 'i']] 1 [] =
        query wEmbedFn wSvc [['h', 'i']] 1 []) :=
  ⟨by decide, rfl,
    by
      intro call m hm
      simp only [wSvc, List.mem_singleton] at hm
      subst hm
      decide,
    c3_query_first_embedding Nat wEmbedFn wSvc [['h', 'i']] 1 []
      (by decide) rfl
      (by
        intro call m hm
        simp only [wSvc, List.mem_singleton] at hm
        subst hm
        decide)⟩

/-! Claim C4 (`_initialize` error kind). -/

/-- C4, counterexample: on an adapter without an attached embedder,
`_initialize` raises `ValueError`, not the `ConfigurationError` the claim
names. -/
theorem c4_counterexample :
    (initCheckEmbedder (⟨⟨[], 0, []⟩, [], [], none⟩ : PineconeDb Nat)).1 =
      Except.error PyErr.valueError ∧
    PyErr.valueError ≠ PyErr.configurationError :=
  ⟨rfl, by decide⟩

/-- C4, amended: `_initialize` raises `ValueError` (not `ConfigurationError`)
exactly when no embedding provider has been attached, succeeds otherwise, and
leaves the adapter state unchanged in both cases. -/
theorem c4_initialize_check (E : Type) (db : PineconeDb E) :
    ((initCheckEmbedder db).1 = Except.error PyErr.valueError ↔ db.embedder.isNone = true) ∧
    ((initCheckEmbedder db).1 = Except.ok () ↔ db.embedder.isSome = true) ∧
    (initCheckEmbedder db).2 = db := by
  rcases db with ⟨config, index_name, client, embedder⟩
  cases embedder <;> simp [initCheckEmbedder]

/-! Claim C5 (wrong config type at construction). -/

/-- C5, counterexample: constructing with a non-`None` value that is not a
`PineconeDbConfig` raises `TypeError`, not the `ConfigurationError` the claim
names. -/
theorem c5_counterexample :
    (init Nat ⟨[], 0, []⟩ InitArg.wrongType (some [])).1 =
      Except.error PyErr.typeError ∧
    PyErr.typeError ≠ PyErr.configurationError :=
  ⟨rfl, by decide⟩

/-- C5, amended: constructing the adapter with a non-`None` config argument
of the wrong type raises `TypeError` (not `ConfigurationError`), and no
remote-service call is attempted: the service-call log is empty. -/
theorem c5_wrong_config_type (E : Type) (default : PineconeDbConfig)
    (existing : Option (List Str)) :
    init E default InitArg.wrongType existing =
      (Except.error PyErr.typeError, []) :=
  rfl

/-! Claim C6 (`set_collection_name` error kind). -/

/-- C6, counterexample: a non-string collection name raises `TypeError`, not
the `InputError` the claim names (the configuration is indeed left
unchanged). -/
theorem c6_counterexample :
    (set_collection_name (⟨⟨['c'], 3, []⟩, ['x'], ['x'], none⟩ : PineconeDb Nat)
        (PyObj.int 5)).1 = Except.error PyErr.typeError ∧
    PyErr.typeError ≠ PyErr.inputError ∧
    (set_collection_name (⟨⟨['c'], 3, []⟩, ['x'], ['x'], none⟩ : PineconeDb Nat)
        (PyObj.int 5)).2 = ⟨⟨['c'], 3, []⟩, ['x'], ['x'], none⟩ :=
  ⟨rfl, by decide, rfl⟩

/-- C6, amended: `set_collection_name` raises `TypeError` (not `InputError`)
if and only if its argument is not a string, and on a non-string argument the
adapter state — in particular the configuration — is unchanged. -/
theorem c6_set_collection_name_type_check (E : Type) (db : PineconeDb E)
    (name : PyObj) :
    ((set_collection_name db name).1 = Except.error PyErr.typeError ↔
      isStr name = false) ∧
    (isStr name = false → (set_collection_name db name).2 = db) := by
  cases name <;> simp [set_collection_name, isStr]

/-- C6 witness: concrete run of `c6_set_collection_name_type_check` on a
non-string argument. -/
theorem c6_set_collection_name_type_check_witness :
    ((set_collection_name (⟨⟨['c'], 3, []⟩, ['n'], ['n'], none⟩ : PineconeDb Nat)
        (PyObj.noneVal)).1 = Except.error PyErr.typeError ↔
      isStr PyObj.noneVal = false) ∧
    (isStr PyObj.noneVal = false →
      (set_collection_name (⟨⟨['c'], 3, []⟩, ['n'], ['n'], none⟩ : PineconeDb Nat)
        (PyObj.noneVal)).2 = ⟨⟨['c'], 3, []⟩, ['n'], ['n'], none⟩) :=
  c6_set_collection_name_type_check Nat ⟨⟨['c'], 3, []⟩, ['n'], ['n'], none⟩ PyObj.noneVal

/-! Claim C7 (`get` issues one zero-vector query and wraps the ids). -/

/-- C7, counterexample: `get` does not return the bare set of match ids; it
returns the dict `{"ids": <set>}` (shown on a service with one match with id
`"a"` and one stored vector). -/
theorem c7_counterexample :
    (get ⟨1, fun _ => [⟨['a'], []⟩]⟩ 2 none none none).2 =
      PyObj.dict [(idsKey, PyObj.strSet [['a']])] ∧
    (get ⟨1, fun _ => [⟨['a'], []⟩]⟩ 2 none none none).2 ≠
      PyObj.strSet [['a']] :=
  ⟨rfl, by simp [get]⟩

/-- C7, amended: every call to `get` issues exactly one similarity query,
whose vector is the zero vector of length `dimension` and whose `top_k` is
`max 1 (count)`, with the given filter; and it returns the set of ids of the
returned matches wrapped in a dict under the key `"ids"` (not a bare set). -/
theorem c7_get_zero_vector_query (svc : GetService) (dimension : Nat)
    (ids : Option (List Str)) (whereF : Option Meta) (limit : Option Nat) :
    (get svc dimension ids whereF limit).1 =
      [⟨List.replicate dimension 0, max 1 (count svc), whereF⟩] ∧
    (∀ call ∈ (get svc dimension ids whereF limit).1,
      call.vector.length = dimension ∧ ∀ x ∈ call.vector, x = 0) ∧
    (get svc dimension ids whereF limit).2 =
      PyObj.dict [(idsKey, PyObj.strSet (pySetOf
        ((svc.matchesFor ⟨List.replicate dimension 0, max 1 (count svc), whereF⟩).map
          MatchRec.id)))] := by
  refine ⟨rfl, ?_, rfl⟩
  intro call hcall
  rcases List.mem_singleton.mp hcall with rfl
  exact ⟨List.length_replicate _ _, fun x hx => List.eq_of_mem_replicate hx⟩

/-! Claim C8 (`set_collection_name` frame on a string argument). -/

/-- C8: on a string argument, `set_collection_name` succeeds and mutates only
the configuration's `collection_name`: the already-derived `index_name`, the
client handle, the embedder, and the other config fields are unchanged, and
the new name is picked up by the next index-name derivation. -/
theorem c8_set_collection_name_frame (E : Type) (db : PineconeDb E) (s : Str) :
    (set_collection_name db (PyObj.str s)).1 = Except.ok () ∧
    (set_collection_name db (PyObj.str s)).2.index_name = db.index_name ∧
    (set_collection_name db (PyObj.str s)).2.client = db.client ∧
    (set_collection_name db (PyObj.str s)).2.embedder = db.embedder ∧
    (set_collection_name db (PyObj.str s)).2.config.dimension = db.config.dimension ∧
    (set_collection_name db (PyObj.str s)).2.config.metric = db.config.metric ∧
    (set_collection_name db (PyObj.str s)).2.config.collection_name = s ∧
    get_index_name (set_collection_name db (PyObj.str s)).2.config =
      pyReplace (pyLower (s ++ '-' :: natStr db.config.dimension)) '_' '-' :=
  ⟨rfl, rfl, rfl, rfl, rfl, rfl, rfl, rfl⟩

/-! Claim C10 (`get` ignores its `ids` and `limit` parameters). -/

/-- C10: the `ids` and `limit` arguments of `get` have no effect on the
issued service calls or on the result: any two calls agreeing on the service
state, dimension and filter return the same value. -/
theorem c10_get_ignores_ids_limit (svc : GetService) (dimension : Nat)
    (ids₁ ids₂ : Option (List Str)) (limit₁ limit₂ : Option Nat)
    (whereF : Option Meta) :
    get svc dimension ids₁ whereF limit₁ = get svc dimension ids₂ whereF limit₂ :=
  rfl

/-! Claim C9 (`add` mutates the caller's metadata dicts in place). -/

theorem find?_map_replace (m : Meta) (k : Str) (v : PyObj)
    (h : m.any (fun p => p.1 = k) = true) :
    ((m.map fun p => if p.1 = k then (k, v) else p).find? fun p => p.1 = k) =
      some (k, v) := by
  induction m with
  | nil => cases h
  | cons p m ih =>
    by_cases hp : p.1 = k
    · rw [List.map_cons, if_pos hp, List.find?_cons_of_pos _ (by simp)]
    · rw [List.map_cons, if_neg hp, List.find?_cons_of_neg _ (by simp [hp])]
      exact ih (by simpa [List.any_cons, hp] using h)

theorem find?_append_single (m : Meta) (k : Str) (v : PyObj)
    (h : m.any (fun p => p.1 = k) = false) :
    ((m ++ [(k, v)]).find? fun p => p.1 = k) = some (k, v) := by
  induction m with
  | nil => simp [List.find?]
  | cons p m ih =>
    have hp : ¬p.1 = k := by
      intro hk
      simp [List.any_cons, hk] at h
    rw [List.cons_append, List.find?_cons_of_neg _ (by simp [hp])]
    exact ih (by simpa [List.any_cons, hp] using h)

theorem mdGet_mdSet (m : Meta) (k : Str) (v : PyObj) :
    mdGet (mdSet m k v) k = some v := by
  unfold mdGet mdSet
  by_cases h : m.any (fun p => p.1 = k) = true
  · rw [if_pos h, find?_map_replace m k v h]
    rfl
  · rw [if_neg h, find?_append_single m k v (Bool.eq_false_iff.mpr h)]
    rfl

/-- C9: when the metadata list is no longer than the other three sequences,
`add` rewrites every caller-supplied metadata dict in place: after the call
the i-th metadata object equals the original with `"text"` set to the i-th
document, so looking up `"text"` in the caller's own object yields that
document. -/
theorem c9_add_mutates_metadatas (E : Type) (embedding_fn : List Str → List E)
    (documents : List Str) (metadatas : List Meta) (ids : List Str)
    (h1 : metadatas.length ≤ ids.length)
    (h2 : metadatas.length ≤ documents.length)
    (h3 : metadatas.length ≤ (embedding_fn documents).length) :
    (add embedding_fn documents metadatas ids).metadatasAfter.length =
      metadatas.length ∧
    ∀ (i : Nat)
      (hiA : i < (add embedding_fn documents metadatas ids).metadatasAfter.length)
      (hiM : i < metadatas.length) (hiD : i < documents.length),
      (add embedding_fn documents metadatas ids).metadatasAfter.get ⟨i, hiA⟩ =
        mdSet (metadatas.get ⟨i, hiM⟩) textKey (PyObj.str (documents.get ⟨i, hiD⟩)) ∧
      mdGet ((add embedding_fn documents metadatas ids).metadatasAfter.get ⟨i, hiA⟩)
          textKey =
        some (PyObj.str (documents.get ⟨i, hiD⟩)) := by
  have hzlen :
      (ids.zip (documents.zip (metadatas.zip (embedding_fn documents)))).length =
        metadatas.length := by
    simp only [List.length_zip]
    omega
  have hafter :
      (add embedding_fn documents metadatas ids).metadatasAfter =
        (ids.zip (documents.zip (metadatas.zip (embedding_fn documents)))).map
          fun q => mdSet q.2.2.1 textKey (PyObj.str q.2.1) := by
    simp only [add, hzlen, List.drop_length, List.append_nil]
  rw [hafter]
  constructor
  · rw [List.length_map, hzlen]
  · intro i hiA hiM hiD
    have hmain : ((ids.zip (documents.zip (metadatas.zip (embedding_fn documents)))).map
          fun q => mdSet q.2.2.1 textKey (PyObj.str q.2.1)).get ⟨i, hiA⟩ =
        mdSet (metadatas.get ⟨i, hiM⟩) textKey (PyObj.str (documents.get ⟨i, hiD⟩)) := by
      simp [List.get_eq_getElem, List.getElem_map, List.getElem_zip]
    exact ⟨hmain, by rw [hmain]; exact mdGet_mdSet _ _ _⟩

/-- C9 witness: concrete run of `c9_add_mutates_metadatas` on one document,
one (empty) metadata dict and one id, with the length embedder. -/
theorem c9_add_mutates_metadatas_witness :
    ([([] : Meta)].length ≤ [['i']].length ∧
     [([] : Meta)].length ≤ [['d']].length ∧
     [([] : Meta)].length ≤ (wEmbedFn [['d']]).length) ∧
    ((add wEmbedFn [['d']] [([] : Meta)] [['i']]).metadatasAfter.length =
      [([] : Meta)].length ∧
    ∀ (i : Nat)
      (hiA : i < (add wEmbedFn [['d']] [([] : Meta)] [['i']]).metadatasAfter.length)
      (hiM : i < [([] : Meta)].length) (hiD : i < [['d']].length),
      (add wEmbedFn [['d']] [([] : Meta)] [['i']]).metadatasAfter.get ⟨i, hiA⟩ =
        mdSet ([([] : Meta)].get ⟨i, hiM⟩) textKey (PyObj.str ([['d']].get ⟨i, hiD⟩)) ∧
      mdGet ((add wEmbedFn [['d']] [([] : Meta)] [['i']]).metadatasAfter.get ⟨i, hiA⟩)
          textKey =
        some (PyObj.str ([['d']].get ⟨i, hiD⟩))) :=
  ⟨⟨by decide, by decide, by decide⟩,
    c9_add_mutates_metadatas Nat wEmbedFn [['d']] [([] : Meta)] [['i']]
      (by decide) (by decide) (by decide)⟩

end Pinecone
